import Mathlib

/-!
Verification of the chunking utilities in
`02_Embeddings_and_RAG/aimakerspace/text_utils.py`.

Documents are modelled as `List Char` (Python strings are sequences of
characters, and all slicing in the source is by character index); Python
`int` is modelled as `ℤ`.  `TextFileLoader` is plain file I/O and is outside
the scope of the claims, so it is not embedded.
-/

/-- Python slicing `t[a:b]` (implicit step 1) for arbitrary integer bounds:
a negative index counts from the end, and both bounds are clamped to
`[0, len(t)]`. -/
def pySlice (t : List Char) (a b : Int) : List Char :=
  let n : Int := t.length
  let a' : Int := if a < 0 then max (n + a) 0 else min a n
  let b' : Int := if b < 0 then max (n + b) 0 else min b n
  (t.take b'.toNat).drop a'.toNat

/-- Python `range(start, stop, step)` for `step > 0`: the arithmetic
progression `start, start + step, …` strictly below `stop`.  The source only
calls this as `range(0, len(text), stride)`; for `step < 0` with
`stop ≥ start` Python yields the empty range, and `step = 0` raises (it is
unreachable behind the constructor's assert), so both are modelled as `[]`. -/
def pyRange (start stop step : Int) : List Int :=
  if 0 < step then
    (List.range ((stop - start + step - 1) / step).toNat).map
      (fun (k : Nat) => start + (k : Int) * step)
  else []

/-- The configuration state of a constructed `CharacterTextSplitter`
(the two fields stored by `__init__`). -/
structure CharacterTextSplitter where
  chunk_size : Int
  chunk_overlap : Int
deriving DecidableEq

/-- `CharacterTextSplitter.__init__`: the assert
`chunk_size > chunk_overlap` guards construction (the source's default
arguments are `2000` and `1000`; a failing assert raises, modelled as
`Except.error`). -/
def CharacterTextSplitter.make (chunk_size chunk_overlap : Int) :
    Except String CharacterTextSplitter :=
  if chunk_size > chunk_overlap then
    .ok ⟨chunk_size, chunk_overlap⟩
  else
    .error "Chunk size must be greater than chunk overlap"

/-- `CharacterTextSplitter.split`: collects `text[i : i + chunk_size]` for
`i in range(0, len(text), chunk_size - chunk_overlap)`. -/
def CharacterTextSplitter.split (s : CharacterTextSplitter) (text : List Char) :
    List (List Char) :=
  (pyRange 0 text.length (s.chunk_size - s.chunk_overlap)).map
    (fun i => pySlice text i (i + s.chunk_size))

/-- `CharacterTextSplitter.split_texts`: starts from an empty list of chunks
and extends it with `split text` for each text in order. -/
def CharacterTextSplitter.split_texts (s : CharacterTextSplitter)
    (texts : List (List Char)) : List (List Char) :=
  texts.foldl (fun chunks text => chunks ++ s.split text) []

/-- The state of a constructed `MultiSizeTextSplitter`: its list of
internal splitters. -/
structure MultiSizeTextSplitter where
  splitters : List CharacterTextSplitter
deriving DecidableEq

/-- The construction loop of `MultiSizeTextSplitter.__init__`: one
`CharacterTextSplitter` per `(chunk_size, chunk_overlap)` pair, stopping at
the first failing assert, so no partially constructed object escapes. -/
def buildSplitters : List (Int × Int) → Except String (List CharacterTextSplitter)
  | [] => .ok []
  | (cs, ov) :: rest =>
    match CharacterTextSplitter.make cs ov with
    | .error e => .error e
    | .ok sp =>
      match buildSplitters rest with
      | .error e => .error e
      | .ok sps => .ok (sp :: sps)

/-- `MultiSizeTextSplitter.__init__` with an explicit configuration list
(the source substitutes the default `[(1000, 500), (500, 250)]` when none is
supplied). -/
def MultiSizeTextSplitter.make (chunk_configs : List (Int × Int)) :
    Except String MultiSizeTextSplitter :=
  Except.map MultiSizeTextSplitter.mk (buildSplitters chunk_configs)

/-- `MultiSizeTextSplitter.split`: all chunks from all splitter
configurations, concatenated in configuration-list order. -/
def MultiSizeTextSplitter.split (m : MultiSizeTextSplitter) (text : List Char) :
    List (List Char) :=
  m.splitters.foldl (fun all_chunks sp => all_chunks ++ sp.split text) []

/-- `MultiSizeTextSplitter.split_texts`: extends the chunk list with
`m.split text` for each text in order. -/
def MultiSizeTextSplitter.split_texts (m : MultiSizeTextSplitter)
    (texts : List (List Char)) : List (List Char) :=
  texts.foldl (fun all_chunks text => all_chunks ++ m.split text) []

/-- The f-string key `f"{splitter.chunk_size}_{splitter.chunk_overlap}"`. -/
def sizeKey (sp : CharacterTextSplitter) : String :=
  toString sp.chunk_size ++ "_" ++ toString sp.chunk_overlap

/-- Assignment `d[k] = v` on a Python dict, modelled as an insertion-ordered
association list: an existing key keeps its position and receives the new
value, a fresh key is appended at the end. -/
def dictAssign {α : Type} (d : List (String × α)) (k : String) (v : α) :
    List (String × α) :=
  if d.any (fun p => p.1 == k) then
    d.map (fun p => if p.1 == k then (k, v) else p)
  else
    d ++ [(k, v)]

/-- `MultiSizeTextSplitter.split_by_size`: builds the dict mapping each
splitter's size key to that splitter's chunks, iterating the splitters in
order. -/
def MultiSizeTextSplitter.split_by_size (m : MultiSizeTextSplitter)
    (text : List Char) : List (String × List (List Char)) :=
  m.splitters.foldl (fun d sp => dictAssign d (sizeKey sp) (sp.split text)) []

/-! ## Foundational lemmas -/

/-- `k` is an index into `range(0, n, s)` exactly when its offset `k * s` is
below `n`. -/
lemma lt_count_iff {s n : ℕ} (hs : 0 < s) (k : ℕ) :
    k < (n + s - 1) / s ↔ k * s < n := by
  rw [Nat.lt_iff_add_one_le, Nat.le_div_iff_mul_le hs, Nat.succ_mul]
  have h := Nat.zero_le (k * s)
  generalize k * s = m at *
  omega

/-- Python slicing with nonnegative bounds `t[a : a + w]` is
drop-then-take. -/
lemma pySlice_nonneg (d : List Char) (a w : ℤ) (ha : 0 ≤ a) (hw : 0 ≤ w) :
    pySlice d a (a + w) = (d.drop a.toNat).take w.toNat := by
  unfold pySlice
  have hna : ¬ a < 0 := by omega
  have hnb : ¬ a + w < 0 := by omega
  simp only [hna, hnb, if_false]
  have h1 : (min a (d.length : ℤ)).toNat = min a.toNat d.length := by omega
  have h2 : (min (a + w) (d.length : ℤ)).toNat = min (a.toNat + w.toNat) d.length := by
    omega
  rw [h1, h2]
  rcases le_or_lt a.toNat d.length with h | h
  · rw [min_eq_left h, List.drop_take, List.take_eq_take]
    simp only [List.length_drop]
    omega
  · rw [min_eq_right (le_of_lt h)]
    rw [List.drop_eq_nil_of_le (by simp [List.length_take])]
    rw [List.drop_eq_nil_of_le (by omega)]
    simp

/-- Closed form of `CharacterTextSplitter.split` for a valid configuration
`0 ≤ chunk_overlap < chunk_size`, with stride `s = chunk_size - chunk_overlap`:
the chunk at index `k` is `take chunk_size (drop (k * s) d)`, and the number of
chunks is `⌈length d / s⌉`. -/
lemma split_formula (w ov : ℤ) (h0 : 0 ≤ ov) (h1 : ov < w) (d : List Char) :
    CharacterTextSplitter.split ⟨w, ov⟩ d
      = (List.range ((d.length + (w - ov).toNat - 1) / (w - ov).toNat)).map
          (fun k => (d.drop (k * (w - ov).toNat)).take w.toNat) := by
  unfold CharacterTextSplitter.split pyRange
  have hstep : (0 : ℤ) < w - ov := by omega
  rw [if_pos hstep]
  have hcount : (((d.length : ℤ) - 0 + (w - ov) - 1) / (w - ov)).toNat
      = (d.length + (w - ov).toNat - 1) / (w - ov).toNat := by
    have hs : ((w - ov).toNat : ℤ) = w - ov := by omega
    have hnum : ((d.length : ℤ) - 0 + (w - ov) - 1)
        = ((d.length + (w - ov).toNat - 1 : ℕ) : ℤ) := by omega
    rw [hnum, ← hs, ← Int.ofNat_ediv]
    exact Int.toNat_ofNat _
  rw [hcount, List.map_map]
  apply List.map_congr_left
  intro k _
  have ha : (0 : ℤ) + (k : ℤ) * (w - ov) = ((k * (w - ov).toNat : ℕ) : ℤ) := by
    have hs : ((w - ov).toNat : ℤ) = w - ov := by omega
    push_cast
    rw [hs]
    ring
  simp only [Function.comp]
  rw [ha, pySlice_nonneg _ _ _ (by positivity) (by omega)]
  have hback : ((k * (w - ov).toNat : ℕ) : ℤ).toNat = k * (w - ov).toNat := by
    omega
  rw [hback]

/-- Concatenating consecutive stride-sized windows `take s (drop (a + j*s) d)`
for `j < t` yields the single window `take (t*s) (drop a d)`. -/
lemma flatten_chain (d : List Char) (s a : ℕ) (t : ℕ) :
    ((List.range t).map (fun j => (d.drop (a + j * s)).take s)).flatten
      = (d.drop a).take (t * s) := by
  induction t with
  | zero => simp
  | succ t ih =>
    rw [List.range_succ, List.map_append, List.flatten_append, ih]
    simp only [List.map_cons, List.map_nil, List.flatten_cons, List.flatten_nil,
      List.append_nil]
    rw [Nat.succ_mul, List.take_add, List.drop_drop]

/-- C1: for every document `d` and every valid configuration with
`chunk_size > chunk_overlap`, `split d` consists exactly of the chunks at
start offsets `0, stride, 2·stride, …` (stride = `chunk_size - chunk_overlap`)
for as long as the offset is below `length d`; the chunk at offset `i` is the
substring `d[i : i + chunk_size]`, truncated by the end of `d` with no
padding. -/
theorem C1_split_window_offsets (w ov : ℤ) (h0 : 0 ≤ ov) (h1 : ov < w)
    (d : List Char) :
    (∀ k : ℕ, k < (CharacterTextSplitter.split ⟨w, ov⟩ d).length
        ↔ k * (w - ov).toNat < d.length)
    ∧ ∀ k (h : k < (CharacterTextSplitter.split ⟨w, ov⟩ d).length),
        (CharacterTextSplitter.split ⟨w, ov⟩ d).get ⟨k, h⟩
          = (d.drop (k * (w - ov).toNat)).take w.toNat := by
  have hs : 0 < (w - ov).toNat := by omega
  constructor
  · intro k
    rw [split_formula w ov h0 h1, List.length_map, List.length_range]
    exact lt_count_iff hs k
  · intro k h
    have h' := h
    rw [split_formula w ov h0 h1] at h'
    simp only [split_formula w ov h0 h1, List.get_eq_getElem, List.getElem_map,
      List.getElem_range]

/-- Witness for C1: the configuration `(3, 1)` on the document `"abcd"`. -/
theorem C1_witness :
    (0 : ℤ) ≤ 1 ∧ (1 : ℤ) < 3
    ∧ ((∀ k : ℕ, k < (CharacterTextSplitter.split ⟨3, 1⟩ ['a', 'b', 'c', 'd']).length
          ↔ k * ((3 : ℤ) - 1).toNat < (['a', 'b', 'c', 'd'] : List Char).length)
       ∧ ∀ k (h : k < (CharacterTextSplitter.split ⟨3, 1⟩ ['a', 'b', 'c', 'd']).length),
          (CharacterTextSplitter.split ⟨3, 1⟩ ['a', 'b', 'c', 'd']).get ⟨k, h⟩
            = ((['a', 'b', 'c', 'd'] : List Char).drop (k * ((3 : ℤ) - 1).toNat)).take
                (3 : ℤ).toNat) :=
  ⟨by norm_num, by norm_num,
    C1_split_window_offsets 3 1 (by norm_num) (by norm_num) ['a', 'b', 'c', 'd']⟩

/-- C2: for every valid configuration and every document, concatenating the
chunks of `split d` with the declared overlap removed from every chunk after
the first reconstructs `d` exactly. -/
theorem C2_overlap_reconstruction (w ov : ℤ) (h0 : 0 ≤ ov) (h1 : ov < w)
    (d : List Char) :
    (CharacterTextSplitter.split ⟨w, ov⟩ d).headI
      ++ (((CharacterTextSplitter.split ⟨w, ov⟩ d).tail).map
            (fun ch => ch.drop ov.toNat)).flatten = d := by
  have hs : 0 < (w - ov).toNat := by omega
  rw [split_formula w ov h0 h1]
  rcases Nat.eq_zero_or_pos d.length with hn | hn
  · have hc : (d.length + (w - ov).toNat - 1) / (w - ov).toNat = 0 :=
      Nat.div_eq_of_lt (by omega)
    have hd : d = [] := List.eq_nil_of_length_eq_zero hn
    subst hd
    rw [hc]
    rfl
  · have hcpos : 0 < (d.length + (w - ov).toNat - 1) / (w - ov).toNat :=
      (lt_count_iff hs 0).mpr (by simpa using hn)
    obtain ⟨m, hm⟩ : ∃ m, (d.length + (w - ov).toNat - 1) / (w - ov).toNat = m + 1 :=
      ⟨_, (Nat.succ_pred_eq_of_pos hcpos).symm⟩
    rw [hm, List.range_succ_eq_map, List.map_cons, List.headI_cons, List.tail_cons,
      List.map_map, List.map_map]
    have hfun : ((fun ch => List.drop ov.toNat ch) ∘
          fun k => List.take w.toNat (List.drop (k * (w - ov).toNat) d)) ∘ Nat.succ
        = fun j => List.take ((w - ov).toNat)
            (List.drop (w.toNat + j * (w - ov).toNat) d) := by
      funext j
      simp only [Function.comp_apply]
      rw [List.drop_take, List.drop_drop]
      have e1 : Nat.succ j * (w - ov).toNat + ov.toNat
          = w.toNat + j * (w - ov).toNat := by
        rw [Nat.succ_mul]
        have ht := Nat.zero_le (j * (w - ov).toNat)
        generalize j * (w - ov).toNat = t at *
        omega
      have e2 : w.toNat - ov.toNat = (w - ov).toNat := by omega
      rw [e1, e2]
    rw [hfun, flatten_chain]
    simp only [Nat.zero_mul, List.drop_zero]
    have hnle : ¬ (m + 1) * (w - ov).toNat < d.length := by
      intro hlt
      have hcontra := (lt_count_iff hs (m + 1)).mpr hlt
      omega
    have hlen : d.length ≤ w.toNat + m * (w - ov).toNat := by
      rw [Nat.succ_mul] at hnle
      have ht := Nat.zero_le (m * (w - ov).toNat)
      generalize m * (w - ov).toNat = t at *
      omega
    rw [← List.take_add, List.take_of_length_le hlen]

/-- Witness for C2: the configuration `(3, 1)` on the document `"abcde"`. -/
theorem C2_witness :
    (0 : ℤ) ≤ 1 ∧ (1 : ℤ) < 3
    ∧ (CharacterTextSplitter.split ⟨3, 1⟩ ['a', 'b', 'c', 'd', 'e']).headI
        ++ (((CharacterTextSplitter.split ⟨3, 1⟩ ['a', 'b', 'c', 'd', 'e']).tail).map
              (fun ch => ch.drop (1 : ℤ).toNat)).flatten = ['a', 'b', 'c', 'd', 'e'] :=
  ⟨by norm_num, by norm_num,
    C2_overlap_reconstruction 3 1 (by norm_num) (by norm_num) ['a', 'b', 'c', 'd', 'e']⟩

/-- Counterexample for C3: with the valid configuration `(10, 8)` and a
5-character document, `split` yields three chunks of lengths 5, 3, 1 — the
first chunk is not the last, yet its length is 5, not the window size 10. -/
theorem C3_counterexample :
    ¬ (∀ k (h : k < (CharacterTextSplitter.split ⟨10, 8⟩ (List.replicate 5 'a')).length),
        k + 1 < (CharacterTextSplitter.split ⟨10, 8⟩ (List.replicate 5 'a')).length →
        ((CharacterTextSplitter.split ⟨10, 8⟩ (List.replicate 5 'a')).get ⟨k, h⟩).length
          = (10 : ℤ).toNat) := by
  intro hall
  have h0 := hall 0 (by decide) (by decide)
  revert h0
  decide

/-- C3 amended: every chunk of `split d` has length
`min chunk_size (length d - offset)` — so a chunk has length exactly
`chunk_size` whenever the window fits inside the document, but any chunk
whose window reaches past the end (not only the last one) is truncated; the
last chunk has length `length d - last_offset`, which is at most
`chunk_size`. -/
theorem C3_chunk_lengths (w ov : ℤ) (h0 : 0 ≤ ov) (h1 : ov < w) (d : List Char) :
    (∀ k (h : k < (CharacterTextSplitter.split ⟨w, ov⟩ d).length),
        ((CharacterTextSplitter.split ⟨w, ov⟩ d).get ⟨k, h⟩).length
          = min w.toNat (d.length - k * (w - ov).toNat))
    ∧ ∀ k (h : k < (CharacterTextSplitter.split ⟨w, ov⟩ d).length),
        k + 1 = (CharacterTextSplitter.split ⟨w, ov⟩ d).length →
        ((CharacterTextSplitter.split ⟨w, ov⟩ d).get ⟨k, h⟩).length
            = d.length - k * (w - ov).toNat
          ∧ d.length - k * (w - ov).toNat ≤ w.toNat := by
  have hs : 0 < (w - ov).toNat := by omega
  have hget : ∀ k (h : k < (CharacterTextSplitter.split ⟨w, ov⟩ d).length),
      ((CharacterTextSplitter.split ⟨w, ov⟩ d).get ⟨k, h⟩).length
        = min w.toNat (d.length - k * (w - ov).toNat) := by
    intro k h
    have h' := h
    rw [split_formula w ov h0 h1] at h'
    simp only [split_formula w ov h0 h1, List.get_eq_getElem, List.getElem_map,
      List.getElem_range, List.length_take, List.length_drop]
  refine ⟨hget, fun k h hlast => ?_⟩
  have hcnt : k + 1 = (d.length + (w - ov).toNat - 1) / (w - ov).toNat := by
    rw [split_formula w ov h0 h1, List.length_map, List.length_range] at hlast
    exact hlast
  have hklt : k * (w - ov).toNat < d.length := by
    have hk : k < (d.length + (w - ov).toNat - 1) / (w - ov).toNat := by omega
    exact (lt_count_iff hs k).mp hk
  have hnlt : ¬ ((k + 1) * (w - ov).toNat < d.length) := by
    intro hlt
    have := (lt_count_iff hs (k + 1)).mpr hlt
    omega
  have hbound : d.length - k * (w - ov).toNat ≤ w.toNat := by
    rw [Nat.succ_mul] at hnlt
    have ht := Nat.zero_le (k * (w - ov).toNat)
    generalize k * (w - ov).toNat = t at *
    omega
  rw [hget k h, min_eq_right hbound]
  exact ⟨rfl, hbound⟩

/-- Witness for C3 amended: the configuration `(10, 8)` on a 5-character
document. -/
theorem C3_chunk_lengths_witness :
    (0 : ℤ) ≤ 8 ∧ (8 : ℤ) < 10
    ∧ ((∀ k (h : k < (CharacterTextSplitter.split ⟨10, 8⟩ (List.replicate 5 'a')).length),
          ((CharacterTextSplitter.split ⟨10, 8⟩ (List.replicate 5 'a')).get ⟨k, h⟩).length
            = min (10 : ℤ).toNat ((List.replicate 5 'a').length
                - k * ((10 : ℤ) - 8).toNat))
       ∧ ∀ k (h : k < (CharacterTextSplitter.split ⟨10, 8⟩ (List.replicate 5 'a')).length),
          k + 1 = (CharacterTextSplitter.split ⟨10, 8⟩ (List.replicate 5 'a')).length →
          ((CharacterTextSplitter.split ⟨10, 8⟩ (List.replicate 5 'a')).get ⟨k, h⟩).length
              = (List.replicate 5 'a').length - k * ((10 : ℤ) - 8).toNat
            ∧ (List.replicate 5 'a').length - k * ((10 : ℤ) - 8).toNat
                ≤ (10 : ℤ).toNat) :=
  ⟨by norm_num, by norm_num,
    C3_chunk_lengths 10 8 (by norm_num) (by norm_num) (List.replicate 5 'a')⟩

/-- `Except.map` preserves success. -/
lemma isOk_map {ε α β : Type} (f : α → β) (e : Except ε α) :
    (Except.map f e).isOk = e.isOk := by
  cases e <;> rfl

/-- The construction loop succeeds exactly when every configured pair
satisfies the assert `chunk_size > chunk_overlap`. -/
lemma buildSplitters_isOk (cfgs : List (Int × Int)) :
    (buildSplitters cfgs).isOk = true ↔ ∀ p ∈ cfgs, p.2 < p.1 := by
  induction cfgs with
  | nil => simp [buildSplitters, Except.isOk, Except.toBool]
  | cons hd tl ih =>
    obtain ⟨cs, ov⟩ := hd
    by_cases h : ov < cs
    · have hmk : CharacterTextSplitter.make cs ov = .ok ⟨cs, ov⟩ := by
        simp [CharacterTextSplitter.make, h]
      cases hb : buildSplitters tl with
      | ok sps =>
        rw [hb] at ih
        simp only [buildSplitters, hmk, hb, Except.isOk, Except.toBool,
          List.mem_cons, true_iff] at ih ⊢
        intro p hp
        rcases hp with hp | hp
        · subst hp
          exact h
        · exact ih p hp
      | error e =>
        rw [hb] at ih
        simp only [buildSplitters, hmk, hb, Except.isOk, Except.toBool,
          List.mem_cons] at ih ⊢
        constructor
        · intro hfalse
          cases hfalse
        · intro hall
          exact ih.mpr fun p hp => hall p (Or.inr hp)
    · have hmk : CharacterTextSplitter.make cs ov
          = .error "Chunk size must be greater than chunk overlap" := by
        simp [CharacterTextSplitter.make, h]
      simp only [buildSplitters, hmk, Except.isOk, Except.toBool,
        List.mem_cons]
      constructor
      · intro hfalse
        cases hfalse
      · intro hall
        exact absurd (hall (cs, ov) (Or.inl rfl)) h

/-- C4: constructing a `CharacterTextSplitter` fails exactly when
`chunk_size ≤ chunk_overlap`; in particular it fails for `(500, 500)` and
`(100, 200)` and succeeds for `(1000, 500)`; and a `MultiSizeTextSplitter`
construction fails as a whole exactly when some pair of its configuration
list is invalid (the loop stops at the first failing assert, so no partially
constructed splitter is returned). -/
theorem C4_construction_validation :
    (∀ w ov : ℤ, (CharacterTextSplitter.make w ov).isOk = false ↔ w ≤ ov)
    ∧ (CharacterTextSplitter.make 500 500).isOk = false
    ∧ (CharacterTextSplitter.make 100 200).isOk = false
    ∧ (CharacterTextSplitter.make 1000 500).isOk = true
    ∧ ∀ cfgs : List (Int × Int),
        (MultiSizeTextSplitter.make cfgs).isOk = false ↔ ∃ p ∈ cfgs, p.1 ≤ p.2 := by
  refine ⟨?_, by decide, by decide, by decide, ?_⟩
  · intro w ov
    by_cases h : ov < w
    · simp only [CharacterTextSplitter.make, if_pos h, Except.isOk, Except.toBool]
      constructor
      · intro hfalse
        exact absurd hfalse (by simp)
      · intro hle
        omega
    · simp only [CharacterTextSplitter.make, if_neg h, Except.isOk, Except.toBool]
      constructor
      · intro _
        omega
      · intro _
        trivial
  · intro cfgs
    unfold MultiSizeTextSplitter.make
    rw [isOk_map, Bool.eq_false_iff, Ne, buildSplitters_isOk cfgs]
    push_neg
    rfl

/-- Counterexample for C5: with the valid configuration `(1000, 500)`,
`split` of the empty document is the empty ChunkSet, not a ChunkSet with one
empty chunk — `range(0, 0, stride)` is empty. -/
theorem C5_counterexample :
    CharacterTextSplitter.split ⟨1000, 500⟩ ([] : List Char)
      ≠ [([] : List Char)] := by
  decide

/-- C5 amended: for every valid configuration, `split` applied to the empty
document returns the empty ChunkSet (zero chunks). -/
theorem C5_empty_document (w ov : ℤ) (h0 : 0 ≤ ov) (h1 : ov < w) :
    CharacterTextSplitter.split ⟨w, ov⟩ ([] : List Char) = [] := by
  rw [split_formula w ov h0 h1]
  have hc : (([] : List Char).length + (w - ov).toNat - 1) / (w - ov).toNat = 0 :=
    Nat.div_eq_of_lt (by simp; omega)
  rw [hc]
  rfl

/-- Witness for C5 amended: the configuration `(1000, 500)`. -/
theorem C5_empty_document_witness :
    (0 : ℤ) ≤ 500 ∧ (500 : ℤ) < 1000
    ∧ CharacterTextSplitter.split ⟨1000, 500⟩ ([] : List Char) = [] :=
  ⟨by norm_num, by norm_num, C5_empty_document 1000 500 (by norm_num) (by norm_num)⟩

/-- Counterexample for C6: with the configuration `(1000, 500)` and a
document of 1500 characters `'a'`, `split` does not return two chunks —
`range(0, 1500, 500)` has the three offsets 0, 500, 1000. -/
theorem C6_counterexample :
    CharacterTextSplitter.split ⟨1000, 500⟩ (List.replicate 1500 'a')
      ≠ [List.replicate 1000 'a', List.replicate 1000 'a'] := by
  intro h
  have hlen := congrArg List.length h
  rw [split_formula 1000 500 (by norm_num) (by norm_num)] at hlen
  simp only [List.length_map, List.length_range, List.length_replicate,
    List.length_cons, List.length_nil] at hlen
  norm_num at hlen
  revert hlen
  decide

/-- C6 amended: with the configuration `(1000, 500)` and a document of 1500
characters `'a'`, `split` returns exactly three chunks, at offsets 0, 500 and
1000: the first two of length 1000 (covering `[0, 1000)` and `[500, 1500)`
and overlapping in 500 characters) and the third of length 500 (covering
`[1000, 1500)`). -/
theorem C6_three_chunks :
    CharacterTextSplitter.split ⟨1000, 500⟩ (List.replicate 1500 'a')
      = [List.replicate 1000 'a', List.replicate 1000 'a',
         List.replicate 500 'a'] := by
  rw [split_formula 1000 500 (by norm_num) (by norm_num)]
  have hc : ((List.replicate 1500 'a' : List Char).length
        + ((1000 : ℤ) - 500).toNat - 1) / ((1000 : ℤ) - 500).toNat = 3 := by
    norm_num
    decide
  rw [hc]
  norm_num [List.range_succ, List.drop_replicate, List.take_replicate]
  decide

/-- C7: `split_texts` is `split` mapped over the documents in order with the
results concatenated; in particular `split_texts [d1, d2]` is
`split d1 ++ split d2`.  This holds for every splitter configuration, so in
particular for every valid one. -/
theorem C7_split_texts_concat (sp : CharacterTextSplitter)
    (ds : List (List Char)) (d1 d2 : List Char) :
    sp.split_texts [d1, d2] = sp.split d1 ++ sp.split d2
    ∧ sp.split_texts ds = (ds.map sp.split).flatten := by
  have hfold : ∀ (ts : List (List Char)) (init : List (List Char)),
      ts.foldl (fun chunks text => chunks ++ sp.split text) init
        = init ++ (ts.map sp.split).flatten := by
    intro ts
    induction ts with
    | nil => intro init; simp
    | cons t ts ih =>
      intro init
      simp only [List.foldl_cons, List.map_cons, List.flatten_cons, ih,
        List.append_assoc]
  constructor
  · show ([d1, d2].foldl (fun chunks text => chunks ++ sp.split text) []) = _
    rw [hfold]
    simp
  · show (ds.foldl (fun chunks text => chunks ++ sp.split text) []) = _
    rw [hfold]
    simp

/-- Assigning a key that is not present in the dict appends the binding at
the end. -/
lemma dictAssign_fresh {α : Type} (d : List (String × α)) (k : String) (v : α)
    (h : ∀ p ∈ d, p.1 ≠ k) : dictAssign d k v = d ++ [(k, v)] := by
  unfold dictAssign
  rw [if_neg]
  simp only [List.any_eq_true, beq_iff_eq, not_exists, not_and]
  intro p hp
  exact h p hp

/-- Folding `dictAssign` over splitters with pairwise-distinct keys, starting
from a dict whose keys are disjoint from theirs, appends one binding per
splitter in order. -/
lemma foldl_dictAssign (d : List Char) (sps : List CharacterTextSplitter) :
    ∀ acc : List (String × List (List Char)),
      (sps.map sizeKey).Nodup →
      (∀ sp ∈ sps, ∀ p ∈ acc, p.1 ≠ sizeKey sp) →
      sps.foldl (fun m sp => dictAssign m (sizeKey sp) (sp.split d)) acc
        = acc ++ sps.map (fun sp => (sizeKey sp, sp.split d)) := by
  induction sps with
  | nil =>
    intro acc _ _
    simp
  | cons sp tl ih =>
    intro acc hnd hfresh
    simp only [List.foldl_cons, List.map_cons]
    rw [dictAssign_fresh _ _ _ (hfresh sp (List.mem_cons_self sp tl))]
    rw [List.map_cons, List.nodup_cons] at hnd
    rw [ih (acc ++ [(sizeKey sp, sp.split d)]) hnd.2 ?_]
    · simp
    · intro sp' hsp' p hp
      rcases List.mem_append.mp hp with hpin | hpin
      · exact hfresh sp' (List.mem_cons_of_mem sp hsp') p hpin
      · have hpe : p = (sizeKey sp, sp.split d) := by simpa using hpin
        rw [hpe]
        intro hcontra
        apply hnd.1
        have hkey : sizeKey sp = sizeKey sp' := hcontra
        rw [hkey]
        exact List.mem_map_of_mem sizeKey hsp'

/-- Counterexample for C8: a multi splitter whose configuration list repeats
the pair `(1000, 500)` constructs fine, but `split_by_size` has a single
entry rather than one key per configured pair in insertion order. -/
theorem C8_counterexample :
    MultiSizeTextSplitter.make [((1000 : ℤ), (500 : ℤ)), (1000, 500)]
        = Except.ok ⟨[⟨1000, 500⟩, ⟨1000, 500⟩]⟩
    ∧ (MultiSizeTextSplitter.split_by_size ⟨[⟨1000, 500⟩, ⟨1000, 500⟩]⟩
          ['a', 'b']).map Prod.fst
        ≠ [sizeKey ⟨1000, 500⟩, sizeKey ⟨1000, 500⟩] := by
  constructor
  · rfl
  · decide

/-- C8 amended: for every multi splitter whose configured pairs yield
pairwise-distinct size keys (true for any list of pairwise-distinct pairs,
since the key determines the pair), `split_by_size d` is exactly the
association list of `(size key, that splitter's chunks)` in
configuration-list insertion order; and for every multi splitter, the flat
`split d` is the concatenation of the per-configuration ChunkSets in
configuration-list order. -/
theorem C8_split_by_size (sps : List CharacterTextSplitter) (d : List Char) :
    ((sps.map sizeKey).Nodup →
      MultiSizeTextSplitter.split_by_size ⟨sps⟩ d
        = sps.map (fun sp => (sizeKey sp, sp.split d)))
    ∧ MultiSizeTextSplitter.split ⟨sps⟩ d
        = (sps.map (fun sp => sp.split d)).flatten := by
  constructor
  · intro hnd
    have h := foldl_dictAssign d sps [] hnd (by simp)
    simpa [MultiSizeTextSplitter.split_by_size] using h
  · show (sps.foldl (fun all_chunks sp => all_chunks ++ sp.split d) []) = _
    have hfold : ∀ (l : List CharacterTextSplitter)
        (init : List (List Char)),
        l.foldl (fun all_chunks sp => all_chunks ++ sp.split d) init
          = init ++ (l.map (fun sp => sp.split d)).flatten := by
      intro l
      induction l with
      | nil => intro init; simp
      | cons sp tl ih =>
        intro init
        simp only [List.foldl_cons, List.map_cons, List.flatten_cons, ih,
          List.append_assoc]
    rw [hfold]
    simp

/-- Witness for C8 amended: the default configuration pair list
`[(1000, 500), (500, 250)]` on the document `"ab"`. -/
theorem C8_split_by_size_witness :
    (([⟨1000, 500⟩, ⟨500, 250⟩] : List CharacterTextSplitter).map
        sizeKey).Nodup
    ∧ (MultiSizeTextSplitter.split_by_size ⟨[⟨1000, 500⟩, ⟨500, 250⟩]⟩
          ['a', 'b']
        = ([⟨1000, 500⟩, ⟨500, 250⟩] : List CharacterTextSplitter).map
            (fun sp => (sizeKey sp, sp.split ['a', 'b']))
      ∧ MultiSizeTextSplitter.split ⟨[⟨1000, 500⟩, ⟨500, 250⟩]⟩ ['a', 'b']
        = (([⟨1000, 500⟩, ⟨500, 250⟩] : List CharacterTextSplitter).map
            (fun sp => sp.split ['a', 'b'])).flatten) :=
  ⟨by decide,
    (C8_split_by_size [⟨1000, 500⟩, ⟨500, 250⟩] ['a', 'b']).1 (by decide),
    (C8_split_by_size [⟨1000, 500⟩, ⟨500, 250⟩] ['a', 'b']).2⟩

/-- C9: construction checks only `chunk_size > chunk_overlap` and never that
`chunk_size` is positive or `chunk_overlap` nonnegative: the configuration
`(0, -1)` is accepted, and its `split` then returns one empty chunk per
offset — stride is `0 - (-1) = 1`, so there is one empty chunk
`text[i : i + 0]` for every `i` below the document length. -/
theorem C9_no_positivity_check :
    (∀ w ov : ℤ, (CharacterTextSplitter.make w ov).isOk = true ↔ ov < w)
    ∧ (CharacterTextSplitter.make 0 (-1)).isOk = true
    ∧ ∀ d : List Char,
        CharacterTextSplitter.split ⟨0, -1⟩ d = List.replicate d.length [] := by
  refine ⟨?_, by decide, ?_⟩
  · intro w ov
    by_cases h : ov < w
    · simp only [CharacterTextSplitter.make, if_pos h, Except.isOk, Except.toBool]
      simpa using h
    · simp only [CharacterTextSplitter.make, if_neg h, Except.isOk, Except.toBool]
      constructor
      · intro hcontra
        cases hcontra
      · intro hlt
        exact absurd hlt h
  · intro d
    unfold CharacterTextSplitter.split pyRange
    rw [if_pos (by norm_num : (0 : ℤ) <
      ({ chunk_size := 0, chunk_overlap := -1 } : CharacterTextSplitter).chunk_size
        - ({ chunk_size := 0, chunk_overlap := -1 } :
            CharacterTextSplitter).chunk_overlap)]
    have hcnt : (((d.length : ℤ) - 0
        + (({ chunk_size := 0, chunk_overlap := -1 } :
              CharacterTextSplitter).chunk_size
            - ({ chunk_size := 0, chunk_overlap := -1 } :
                CharacterTextSplitter).chunk_overlap) - 1)
        / (({ chunk_size := 0, chunk_overlap := -1 } :
              CharacterTextSplitter).chunk_size
            - ({ chunk_size := 0, chunk_overlap := -1 } :
                CharacterTextSplitter).chunk_overlap)).toNat = d.length := by
      show (((d.length : ℤ) - 0 + ((0 : ℤ) - (-1)) - 1) / ((0 : ℤ) - (-1))).toNat
          = d.length
      omega
    rw [List.map_map, hcnt]
    have hfn : ∀ k : ℕ,
        pySlice d ((0 : ℤ) + (k : ℤ) * 1) ((0 : ℤ) + (k : ℤ) * 1 + 0) = [] := by
      intro k
      have h := pySlice_nonneg d ((0 : ℤ) + (k : ℤ) * 1) 0 (by positivity) le_rfl
      simpa using h
    calc (List.range d.length).map
          ((fun i => pySlice d i
              (i + ({ chunk_size := 0, chunk_overlap := -1 } :
                  CharacterTextSplitter).chunk_size)) ∘
            fun (k : Nat) => (0 : ℤ) + (k : ℤ) *
              (({ chunk_size := 0, chunk_overlap := -1 } :
                  CharacterTextSplitter).chunk_size
                - ({ chunk_size := 0, chunk_overlap := -1 } :
                    CharacterTextSplitter).chunk_overlap))
        = (List.range d.length).map (fun _ => ([] : List Char)) :=
          List.map_congr_left (fun k _ => hfn k)
      _ = List.replicate d.length [] := by
          rw [List.map_const', List.length_range]

/-- C10: a multi splitter whose configuration list contains `(1000, 500)`
twice constructs fine; `split_by_size` then has one entry — strictly fewer
than the two configurations — because both pairs share the key
`"1000_500"`, whose value is the (identical) chunk list written by the later
configuration; the flat `split` still returns both configurations'
chunks. -/
theorem C10_duplicate_configs :
    MultiSizeTextSplitter.make [((1000 : ℤ), (500 : ℤ)), (1000, 500)]
        = Except.ok ⟨[⟨1000, 500⟩, ⟨1000, 500⟩]⟩
    ∧ (MultiSizeTextSplitter.split_by_size ⟨[⟨1000, 500⟩, ⟨1000, 500⟩]⟩
          ['a', 'b']).length = 1
    ∧ ([((1000 : ℤ), (500 : ℤ)), (1000, 500)] : List (ℤ × ℤ)).length = 2
    ∧ MultiSizeTextSplitter.split_by_size ⟨[⟨1000, 500⟩, ⟨1000, 500⟩]⟩ ['a', 'b']
        = [(sizeKey ⟨1000, 500⟩, CharacterTextSplitter.split ⟨1000, 500⟩ ['a', 'b'])]
    ∧ MultiSizeTextSplitter.split ⟨[⟨1000, 500⟩, ⟨1000, 500⟩]⟩ ['a', 'b']
        = CharacterTextSplitter.split ⟨1000, 500⟩ ['a', 'b']
            ++ CharacterTextSplitter.split ⟨1000, 500⟩ ['a', 'b'] := by
  exact ⟨by rfl, by decide, by decide, by decide, by decide⟩
